import Mathlib

/-!
Verification development for the soniqB music-player repository.

The playback/event-logging layer is embedded from the frontend sources
(the audio-player provider, the event-logger hook, the event-payload
helper, and the two statistics panels).  JavaScript numbers are modelled
as rationals; the claims verified here only involve order comparisons
and exact arithmetic on them.

The recommendation backend (SimilarityEngine, WormholePathGenerator,
ProjectionService) is not part of this repository's sources; those
components are modelled from the specification and are marked as such
in their doc comments.
-/

/-! ## Event model (frontend/src/types.ts) -/

/-- Event types, from the `EventType` union in types.ts. -/
inductive EventType where
  | play
  | pause
  | skip
  | like
  | unlike
  | seek
  | complete
deriving DecidableEq

/-- The `EventCreate` payload sent to the backend (types.ts). -/
structure EventPayload where
  user_id : ℕ
  track_id : ℕ
  event_type : EventType
  listened_duration : ℚ
deriving DecidableEq

/-- `createEventPayload` from api/eventLogger: clamps the duration with
`Math.max(0, listenedDuration)`. -/
def createEventPayload (userId trackId : ℕ) (eventType : EventType)
    (listenedDuration : ℚ) : EventPayload :=
  { user_id := userId
    track_id := trackId
    event_type := eventType
    listened_duration := max 0 listenedDuration }

/-! ## Event logger (hooks/useEventLogger) -/

/-- The mutable refs of the `useEventLogger` hook that the logging paths
read and write: `playStartTimeRef` and `lastEventTypeRef`. -/
structure LoggerState where
  playStartTime : ℚ
  lastEventType : Option EventType
deriving DecidableEq

/-- The context guard `enabled && user && currentTrack` of the hook:
`some ⟨u, t⟩` when logging is enabled with user id `u` and current track
id `t`, and `none` otherwise. -/
structure LoggerCtx where
  userId : ℕ
  trackId : ℕ
deriving DecidableEq

/-- `logListeningEvent` from useEventLogger: computes
`listenedDuration = currentTime - playStartTimeRef.current`, emits the
payload built by `createEventPayload`, records the event type and resets
the start time.  When the guard fails nothing is emitted. -/
def logListeningEvent (ctx : Option LoggerCtx) (currentTime : ℚ)
    (s : LoggerState) (eventType : EventType) :
    List EventPayload × LoggerState :=
  match ctx with
  | none => ([], s)
  | some c =>
      ([createEventPayload c.userId c.trackId eventType
          (currentTime - s.playStartTime)],
       { playStartTime := currentTime, lastEventType := some eventType })

/-- `handlePlay`: sets `playStartTimeRef.current = currentTime` and then
logs a play event. -/
def handlePlay (ctx : Option LoggerCtx) (currentTime : ℚ)
    (s : LoggerState) : List EventPayload × LoggerState :=
  logListeningEvent ctx currentTime { s with playStartTime := currentTime }
    EventType.play

/-- `handlePause`: logs a pause event unless the last logged event was
already a pause. -/
def handlePause (ctx : Option LoggerCtx) (currentTime : ℚ)
    (s : LoggerState) : List EventPayload × LoggerState :=
  if s.lastEventType = some EventType.pause then ([], s)
  else logListeningEvent ctx currentTime s EventType.pause

/-- `handleSeek`: only seeks whose distance exceeds 5 seconds are
logged, with duration literally 0; the start time is moved to the seek
target.  `lastEventTypeRef` is not touched by this path. -/
def handleSeek (ctx : Option LoggerCtx) (fromTime toTime : ℚ)
    (s : LoggerState) : List EventPayload × LoggerState :=
  match ctx with
  | none => ([], s)
  | some c =>
      if 5 < |toTime - fromTime| then
        ([createEventPayload c.userId c.trackId EventType.seek 0],
         { s with playStartTime := toTime })
      else ([], s)

/-- `handleSkip`: logs a skip event for the current track. -/
def handleSkip (ctx : Option LoggerCtx) (currentTime : ℚ)
    (s : LoggerState) : List EventPayload × LoggerState :=
  logListeningEvent ctx currentTime s EventType.skip

/-- `handleTrackEnd`: logs a complete event. -/
def handleTrackEnd (ctx : Option LoggerCtx) (currentTime : ℚ)
    (s : LoggerState) : List EventPayload × LoggerState :=
  logListeningEvent ctx currentTime s EventType.complete

/-- The queue-change effect of useEventLogger logging a skip for the
previous track, with duration `currentTime > 0 ? currentTime : 0`; it
does not modify the logger refs. -/
def logSkipForPreviousTrack (userId prevTrackId : ℕ) (currentTime : ℚ) :
    List EventPayload :=
  [createEventPayload userId prevTrackId EventType.skip
    (if 0 < currentTime then currentTime else 0)]

/-- The event-emitting entry points of the logger. -/
inductive LoggerOp where
  | play (currentTime : ℚ)
  | pause (currentTime : ℚ)
  | seek (fromTime toTime : ℚ)
  | skip (currentTime : ℚ)
  | trackEnd (currentTime : ℚ)
  | prevTrackSkip (prevTrackId : ℕ) (currentTime : ℚ)
deriving DecidableEq

/-- One invocation of an event-logger entry point: the list of payloads
sent to the backend and the updated logger refs. -/
def loggerStep (ctx : Option LoggerCtx) (op : LoggerOp) (s : LoggerState) :
    List EventPayload × LoggerState :=
  match op with
  | .play t => handlePlay ctx t s
  | .pause t => handlePause ctx t s
  | .seek f t => handleSeek ctx f t s
  | .skip t => handleSkip ctx t s
  | .trackEnd t => handleTrackEnd ctx t s
  | .prevTrackSkip prevId t =>
      match ctx with
      | none => ([], s)
      | some c => (logSkipForPreviousTrack c.userId prevId t, s)

/-! ## Audio player provider (hooks/useAudioPlayer) -/

/-- A queued track; only the id is relevant to the embedded logic. -/
structure Track where
  id : ℕ
deriving DecidableEq

/-- The `AudioPlayerState` react state of the provider. -/
structure AudioPlayerState where
  currentTrack : Option Track
  isPlaying : Bool
  currentTime : ℚ
  duration : ℚ
  volume : ℚ
  queue : List Track
  queueIndex : ℤ
deriving DecidableEq

/-- The provider state together with the `skippedTrackIds` ref. -/
structure PlayerModel where
  state : AudioPlayerState
  skippedTrackIds : List ℕ
deriving DecidableEq

/-- The initial provider state (`useState` initializer). -/
def initialPlayer : PlayerModel :=
  { state :=
      { currentTrack := none
        isPlaying := false
        currentTime := 0
        duration := 0
        volume := 7 / 10
        queue := []
        queueIndex := -1 }
    skippedTrackIds := [] }

/-- JavaScript array indexing `l[i]`: `undefined` (here `none`) outside
the bounds. -/
def jsIndex (l : List Track) (i : ℤ) : Option Track :=
  if i < 0 then none else l.get? i.toNat

/-- Outcome of the `axios.get(/api/recommendations/next)` call awaited
inside `skip`: the request either resolves with data (possibly empty)
or throws. -/
inductive RecoResponse where
  | ok (nextTrack : Option Track)
  | failed
deriving DecidableEq

/-- The skip-signal block at the top of `skip`: pushes the current
track's id onto `skippedTrackIds` when the playback position is below
30 seconds and the track is longer than 30 seconds. -/
def recordSkipSignal (m : PlayerModel) : List ℕ :=
  match m.state.currentTrack with
  | some tr =>
      if m.state.currentTime < 30 ∧ 30 < m.state.duration then
        m.skippedTrackIds ++ [tr.id]
      else m.skippedTrackIds
  | none => m.skippedTrackIds

/-- `skip` from the audio-player provider.  The next-track request
outcome is passed in as `resp`.  When the queue has a next entry the
player advances; otherwise it plays the fetched recommendation, and if
none is available (null data or a thrown request, both caught) it falls
back to `pause()`, which clears `isPlaying`.  The function is total: the
source wraps the request in try/catch, so no exception escapes. -/
def skip (m : PlayerModel) (resp : RecoResponse) : PlayerModel :=
  let nextIndex := m.state.queueIndex + 1
  let skipped := recordSkipSignal m
  if nextIndex < (m.state.queue.length : ℤ) then
    { state :=
        { m.state with
            queueIndex := nextIndex
            currentTrack := jsIndex m.state.queue nextIndex
            isPlaying := true
            currentTime := 0 }
      skippedTrackIds := skipped }
  else
    match m.state.currentTrack, resp with
    | some _, .ok (some nextTrack) =>
        { state :=
            { m.state with
                queue := m.state.queue ++ [nextTrack]
                queueIndex := nextIndex
                currentTrack := some nextTrack
                isPlaying := true
                currentTime := 0 }
          skippedTrackIds := skipped }
    | _, _ =>
        { state := { m.state with isPlaying := false }
          skippedTrackIds := skipped }

/-- `setQueue` from the audio-player provider: clamps the start index
with `Math.max(0, Math.min(startIndex, tracks.length - 1))` and sets
`currentTrack` to `tracks[index] || null`. -/
def setQueue (m : PlayerModel) (tracks : List Track) (startIndex : ℤ) :
    PlayerModel :=
  let index := max 0 (min startIndex ((tracks.length : ℤ) - 1))
  { m with
      state :=
        { m.state with
            queue := tracks
            queueIndex := index
            currentTrack := jsIndex tracks index } }

/-! ## Listening statistics (ListeningSummary.jsx and MetricsPanel.tsx) -/

/-- A listening event as consumed by the dashboards. -/
structure LEvent where
  event_type : EventType
  listened_duration : ℚ
  track_id : ℕ
deriving DecidableEq

/-- The stats record built by `calculateStats` in ListeningSummary.jsx. -/
structure SummaryStats where
  totalPlays : ℕ
  avgDuration : ℚ
  likeCount : ℕ
  skipCount : ℕ
deriving DecidableEq

/-- `calculateStats` from ListeningSummary.jsx: the duration sum ranges
over the play events only. -/
def calculateStats (events : List LEvent) : SummaryStats :=
  let playEvents := events.filter (fun e => e.event_type == EventType.play)
  let likeEvents := events.filter (fun e => e.event_type == EventType.like)
  let skipEvents := events.filter (fun e => e.event_type == EventType.skip)
  let totalPlays := playEvents.length
  let totalDuration := playEvents.foldl (fun sum e => sum + e.listened_duration) 0
  let avgDuration := if 0 < totalPlays then totalDuration / (totalPlays : ℚ) else 0
  { totalPlays := totalPlays
    avgDuration := avgDuration
    likeCount := likeEvents.length
    skipCount := skipEvents.length }

/-- The average-duration computation of MetricsPanel.tsx: the duration
sum is `events.reduce(...)` over all events, divided by the number of
play events. -/
def metricsAvgDuration (events : List LEvent) : ℚ :=
  let totalPlays := (events.filter (fun e => e.event_type == EventType.play)).length
  let totalDuration := events.foldl (fun sum e => sum + e.listened_duration) 0
  if 0 < totalPlays then totalDuration / (totalPlays : ℚ) else 0

/-- Written from the specification's words, for comparison with the code:
`avg_duration` is the mean `listened_duration` over `play` events, and 0
if there are no plays. -/
def specAvgDuration (events : List LEvent) : ℚ :=
  let plays := events.filter (fun e => e.event_type == EventType.play)
  if plays.length = 0 then 0
  else ((plays.map (fun e => e.listened_duration)).sum) / (plays.length : ℚ)

/-- Event list exhibiting the divergence between the two dashboards: one
play of 10 seconds and one pause carrying 5 listened seconds. -/
def mixedEvents : List LEvent :=
  [{ event_type := EventType.play, listened_duration := 10, track_id := 1 },
   { event_type := EventType.pause, listened_duration := 5, track_id := 1 }]

/-! ## ProjectionService

Modelled from the spec: the projection backend is not part of this
repository's sources.  `project(allEmbeddings)` performs a
principal-component projection to 2D, computed once per catalog snapshot
and cached, recomputed only when the catalog changes; the principal-axis
sign is fixed by making the component of largest absolute value
positive; with fewer than two distinct embeddings every point maps to
`(0, 0)`.  The principal axes are computed by a fixed number of power
iterations over the covariance operator, a deterministic realization of
the spec's principal-component computation. -/

/-- Rational coordinate vectors for the projection model. -/
abbrev QVec := List ℚ

/-- Componentwise sum. -/
def qadd (v w : QVec) : QVec := List.zipWith (· + ·) v w

/-- Componentwise difference. -/
def qsub (v w : QVec) : QVec := List.zipWith (· - ·) v w

/-- Scalar multiple. -/
def qsmul (c : ℚ) (v : QVec) : QVec := v.map (fun x => c * x)

/-- Dot product. -/
def qdot (v w : QVec) : ℚ := (List.zipWith (· * ·) v w).sum

/-- The zero vector of dimension `d`. -/
def qzeros (d : ℕ) : QVec := List.replicate d 0

/-- A catalog row loaded into the projection service. -/
structure CatalogEntry where
  track_id : ℕ
  vector : QVec
deriving DecidableEq

/-- Dimension of the catalog's vectors (fixed at load time). -/
def catalogDim (catalog : List CatalogEntry) : ℕ :=
  ((catalog.head?).map (fun e => e.vector.length)).getD 0

/-- Modelled from the spec: the catalog mean vector of the
principal-component computation. -/
def meanVec (catalog : List CatalogEntry) : QVec :=
  if catalog.length = 0 then qzeros (catalogDim catalog)
  else
    qsmul (1 / (catalog.length : ℚ))
      (catalog.foldl (fun acc e => qadd acc e.vector)
        (qzeros (catalogDim catalog)))

/-- Application of the centered-data covariance operator to `w`. -/
def covApply (cvs : List QVec) (w : QVec) : QVec :=
  cvs.foldl (fun acc v => qadd acc (qsmul (qdot v w) v)) (qzeros w.length)

/-- Largest absolute component of a vector. -/
def maxAbs (v : QVec) : ℚ := v.foldl (fun m x => max m |x|) 0

/-- Rescale by the largest absolute component, to keep the power
iteration bounded. -/
def normalizeMax (v : QVec) : QVec :=
  if maxAbs v = 0 then v else qsmul (1 / maxAbs v) v

/-- Modelled from the spec: fix the axis orientation by making the
component of largest absolute value positive. -/
def fixSign (v : QVec) : QVec :=
  if (v.find? (fun x => decide (|x| = maxAbs v))).getD 0 < 0
  then qsmul (-1) v else v

/-- Power iteration for the leading principal axis. -/
def powerIter (cvs : List QVec) : QVec → ℕ → QVec
  | w, 0 => w
  | w, k + 1 => powerIter cvs (normalizeMax (covApply cvs w)) k

/-- Remove from `w` its component along `a` (deflation for the second
principal axis); guarded against a zero axis. -/
def orthogonalize (a w : QVec) : QVec :=
  if qdot a a = 0 then w else qsub w (qsmul (qdot w a / qdot a a) a)

/-- Power iteration for the second principal axis, deflated against the
first axis at every step. -/
def powerIterOrtho (cvs : List QVec) (a : QVec) : QVec → ℕ → QVec
  | w, 0 => w
  | w, k + 1 =>
      powerIterOrtho cvs a (orthogonalize a (normalizeMax (covApply cvs w))) k

/-- First standard basis vector, the iteration seed for the first axis. -/
def seedE1 (d : ℕ) : QVec :=
  match d with
  | 0 => []
  | n + 1 => 1 :: List.replicate n 0

/-- Second standard basis vector, the iteration seed for the second
axis. -/
def seedE2 (d : ℕ) : QVec :=
  match d with
  | 0 => []
  | 1 => [0]
  | n + 2 => 0 :: 1 :: List.replicate n 0

/-- Modelled from the spec: one full (uncached) projection computation.
Degenerate catalogs, with fewer than two distinct embeddings, map every
track to `(0, 0)`. -/
def computeProjection (catalog : List CatalogEntry) :
    List (ℕ × ℚ × ℚ) :=
  if (catalog.map (fun e => e.vector)).dedup.length < 2 then
    catalog.map (fun e => (e.track_id, 0, 0))
  else
    let μ := meanVec catalog
    let cvs := catalog.map (fun e => qsub e.vector μ)
    let d := catalogDim catalog
    let a1 := fixSign (powerIter cvs (seedE1 d) 25)
    let a2 := fixSign (powerIterOrtho cvs a1 (seedE2 d) 25)
    catalog.map (fun e =>
      (e.track_id, qdot (qsub e.vector μ) a1, qdot (qsub e.vector μ) a2))

/-- The projection cache: the catalog snapshot the cached layout was
computed from, published together as one immutable value. -/
structure ProjCache where
  snapshot : List CatalogEntry
  layout : List (ℕ × ℚ × ℚ)
deriving DecidableEq

/-- Modelled from the spec: `ProjectionService.project()`.  Returns the
cached layout when the catalog is unchanged, otherwise recomputes and
republishes the cache. -/
def project (catalog : List CatalogEntry) (cache : Option ProjCache) :
    List (ℕ × ℚ × ℚ) × Option ProjCache :=
  match cache with
  | some c =>
      if c.snapshot = catalog then (c.layout, some c)
      else
        let l := computeProjection catalog
        (l, some { snapshot := catalog, layout := l })
  | none =>
      let l := computeProjection catalog
      (l, some { snapshot := catalog, layout := l })

/-! ## SimilarityEngine

Modelled from the spec: the similarity backend is not part of this
repository's sources.  Embedding vectors are real-valued; cosine
similarity returns 0 on a zero vector instead of dividing by zero;
`nearestNeighbors` returns at most `k` `(track_id, similarity)` pairs
ordered by descending similarity with ties broken by ascending track id;
`similarity` fails with `UnknownTrackError` when either id is absent.
The real-number comparisons make these definitions noncomputable; the
theorems below never need to evaluate a similarity value. -/

/-- Real coordinate vectors for the embedding space. -/
abbrev RVec := List ℝ

/-- Dot product of two real vectors. -/
noncomputable def dotv (v w : RVec) : ℝ := (List.zipWith (· * ·) v w).sum

/-- Euclidean magnitude. -/
noncomputable def normv (v : RVec) : ℝ := Real.sqrt (dotv v v)

/-- Modelled from the spec: cosine similarity with the zero-vector guard
(similarity 0, never a division by zero). -/
noncomputable def cosineSim (v w : RVec) : ℝ :=
  if normv v = 0 ∨ normv w = 0 then 0
  else dotv v w / (normv v * normv w)

/-- A row of the EmbeddingStore. -/
structure EmbeddingEntry where
  track_id : ℕ
  vector : RVec

/-- The track ids present in the store. -/
def storeIds (s : List EmbeddingEntry) : List ℕ :=
  s.map (fun e => e.track_id)

/-- Embedding lookup by track id. -/
def lookupVec (s : List EmbeddingEntry) (id : ℕ) : Option RVec :=
  ((s.find? (fun e => e.track_id == id)).map (fun e => e.vector))

/-- The spec's `UnknownTrackError`. -/
inductive SimError where
  | unknownTrack
deriving DecidableEq

/-- Modelled from the spec: `similarity(idA, idB)`, failing with
`UnknownTrackError` when either id is absent from the store. -/
noncomputable def similarity (s : List EmbeddingEntry) (a b : ℕ) :
    Except SimError ℝ :=
  match lookupVec s a, lookupVec s b with
  | some va, some vb => Except.ok (cosineSim va vb)
  | _, _ => Except.error SimError.unknownTrack

/-- Store entries surviving the exclusion set. -/
def candidates (s : List EmbeddingEntry) (excludeIds : List ℕ) :
    List EmbeddingEntry :=
  s.filter (fun e => decide (e.track_id ∉ excludeIds))

/-- Candidates scored by cosine similarity against the query vector. -/
noncomputable def scored (s : List EmbeddingEntry) (excludeIds : List ℕ)
    (query : RVec) : List (ℕ × ℝ) :=
  (candidates s excludeIds).map (fun e => (e.track_id, cosineSim query e.vector))

/-- The ranking order of the engine: higher similarity first, ties by
ascending track id. -/
def nnRel (p q : ℕ × ℝ) : Prop :=
  q.2 < p.2 ∨ (p.2 = q.2 ∧ p.1 ≤ q.1)

noncomputable instance : DecidableRel nnRel :=
  fun _ _ => Classical.propDecidable _

instance : IsTotal (ℕ × ℝ) nnRel where
  total p q := by
    rcases lt_trichotomy p.2 q.2 with h | h | h
    · exact Or.inr (Or.inl h)
    · rcases le_total p.1 q.1 with h1 | h1
      · exact Or.inl (Or.inr ⟨h, h1⟩)
      · exact Or.inr (Or.inr ⟨h.symm, h1⟩)
    · exact Or.inl (Or.inl h)

instance : IsTrans (ℕ × ℝ) nnRel where
  trans p q r hpq hqr := by
    rcases hpq with h1 | ⟨he1, hi1⟩
    · rcases hqr with h2 | ⟨he2, hi2⟩
      · exact Or.inl (h2.trans h1)
      · exact Or.inl (he2 ▸ h1)
    · rcases hqr with h2 | ⟨he2, hi2⟩
      · exact Or.inl (he1 ▸ h2)
      · exact Or.inr ⟨he1.trans he2, hi1.trans hi2⟩

/-- Modelled from the spec: `nearestNeighbors(queryVector, excludeIds,
k)`, the ranked top-`k` candidates. -/
noncomputable def nearestNeighbors (s : List EmbeddingEntry) (query : RVec)
    (excludeIds : List ℕ) (k : ℕ) : List (ℕ × ℝ) :=
  (List.insertionSort nnRel (scored s excludeIds query)).take k

/-- The single nearest catalog neighbor used by the wormhole generator:
the top entry of a `k = 1` nearest-neighbor query. -/
noncomputable def nearestNeighbor (s : List EmbeddingEntry) (query : RVec)
    (excludeIds : List ℕ) : Option ℕ :=
  (nearestNeighbors s query excludeIds 1).head?.map (fun p => p.1)

/-! ## WormholePathGenerator

Modelled from the spec: the wormhole backend is not part of this
repository's sources.  `generatePath(startId, endId, steps)` normalizes
both endpoint embeddings (failing on zero vectors), spherically
interpolates `steps` evenly spaced points, falls back to linear
interpolation when the angle vanishes, and substitutes each intermediate
point by its nearest catalog neighbor, excluding the endpoints and every
id already chosen.  The spec leaves the behavior undefined when the
exclusions exhaust the catalog; the model signals `noCandidates` there,
mirroring the engine returning an empty neighbor list. -/

/-- Error taxonomy of the wormhole generator. -/
inductive WormholeError where
  | invalidStepCount
  | unknownTrack
  | degenerateVector
  | noCandidates
deriving DecidableEq

/-- Normalization of an endpoint embedding to unit length. -/
noncomputable def normalizeVec (v : RVec) : RVec :=
  v.map (fun x => x / normv v)

/-- Clamp the endpoint dot product into the arccos domain. -/
noncomputable def clampUnit (x : ℝ) : ℝ := max (-1) (min x 1)

/-- One spherically interpolated point between the unit vectors `p0` and
`p1`, with the linear-interpolation fallback when the angle (hence
`sin Ω`) vanishes. -/
noncomputable def slerpPoint (p0 p1 : RVec) (t : ℝ) : RVec :=
  let ang := Real.arccos (clampUnit (dotv p0 p1))
  if Real.sin ang = 0 then
    List.zipWith (fun a b => (1 - t) * a + t * b) p0 p1
  else
    List.zipWith
      (fun a b =>
        (Real.sin ((1 - t) * ang) / Real.sin ang) * a +
          (Real.sin (t * ang) / Real.sin ang) * b) p0 p1

/-- The intermediate-pick loop of the generator: for each parameter
index `i` it queries the nearest neighbor of the interpolated point at
`t = i / (steps - 1)`, excluding the endpoints and all earlier picks. -/
noncomputable def pickMids (s : List EmbeddingEntry) (p0 p1 : RVec)
    (startId endId : ℕ) (steps : ℕ) :
    List ℕ → List ℕ → Except WormholeError (List ℕ)
  | _, [] => Except.ok []
  | chosen, i :: rest =>
      match nearestNeighbor s
          (slerpPoint p0 p1 ((i : ℝ) / ((steps : ℝ) - 1)))
          (startId :: endId :: chosen) with
      | none => Except.error WormholeError.noCandidates
      | some id =>
          (pickMids s p0 p1 startId endId steps (id :: chosen) rest).map
            (fun mids => id :: mids)

/-- Modelled from the spec: `generatePath(startId, endId, steps)`. -/
noncomputable def generatePath (s : List EmbeddingEntry)
    (startId endId : ℕ) (steps : ℕ) : Except WormholeError (List ℕ) :=
  if steps < 2 then Except.error WormholeError.invalidStepCount
  else
    match lookupVec s startId, lookupVec s endId with
    | some v0, some v1 =>
        if normv v0 = 0 ∨ normv v1 = 0 then
          Except.error WormholeError.degenerateVector
        else
          match pickMids s (normalizeVec v0) (normalizeVec v1) startId endId
              steps [] (List.range' 1 (steps - 2)) with
          | Except.ok mids => Except.ok (startId :: (mids ++ [endId]))
          | Except.error e => Except.error e
    | _, _ => Except.error WormholeError.unknownTrack

/-- A two-track catalog: both embeddings known and non-zero, yet too
small to supply six distinct intermediate tracks. -/
noncomputable def tinyStore : List EmbeddingEntry :=
  [{ track_id := 1, vector := [1] }, { track_id := 2, vector := [1] }]

/-- An eight-track catalog with non-zero one-dimensional embeddings. -/
noncomputable def wideStore : List EmbeddingEntry :=
  [{ track_id := 1, vector := [1] }, { track_id := 2, vector := [1] },
   { track_id := 3, vector := [1] }, { track_id := 4, vector := [1] },
   { track_id := 5, vector := [1] }, { track_id := 6, vector := [1] },
   { track_id := 7, vector := [1] }, { track_id := 8, vector := [1] }]

/-- A player state in the middle of a 40-second track, 10 seconds in,
used to instantiate the playback theorems. -/
def demoPlayer : PlayerModel :=
  { state :=
      { currentTrack := some { id := 5 }
        isPlaying := true
        currentTime := 10
        duration := 40
        volume := 7 / 10
        queue := []
        queueIndex := -1 }
    skippedTrackIds := [] }

/-! ## Theorems -/

/-- Whatever branch `skip` takes, the resulting `skippedTrackIds` is the
one produced by the skip-signal block. -/
theorem skip_skippedTrackIds (m : PlayerModel) (resp : RecoResponse) :
    (skip m resp).skippedTrackIds = recordSkipSignal m := by
  unfold skip
  dsimp only
  split
  · rfl
  · split <;> rfl

/-- C2: a skip of the current track records the early-skip penalty
signal, pushing the track id onto `skippedTrackIds`, exactly when the
playback position is strictly below 30 seconds and the track duration is
strictly above 30 seconds; in every other case the penalty state is left
unchanged. -/
theorem skip_penalty_signal_iff (m : PlayerModel) (resp : RecoResponse)
    (tr : Track) (h : m.state.currentTrack = some tr) :
    (skip m resp).skippedTrackIds =
      if m.state.currentTime < 30 ∧ 30 < m.state.duration
      then m.skippedTrackIds ++ [tr.id]
      else m.skippedTrackIds := by
  rw [skip_skippedTrackIds]
  unfold recordSkipSignal
  rw [h]

theorem skip_penalty_signal_iff_witness :
    demoPlayer.state.currentTrack = some { id := 5 } ∧
    (skip demoPlayer RecoResponse.failed).skippedTrackIds =
      (if demoPlayer.state.currentTime < 30 ∧ 30 < demoPlayer.state.duration
       then demoPlayer.skippedTrackIds ++ [5]
       else demoPlayer.skippedTrackIds) :=
  ⟨by decide, skip_penalty_signal_iff demoPlayer RecoResponse.failed
    { id := 5 } (by decide)⟩

/-- C4: when the queue is exhausted and the next-track request yields no
candidate (the request failed or returned no track), `skip` ends with
playback paused and the queue, queue index and current track unchanged;
`skip` is a total function, so no exception reaches the caller. -/
theorem skip_exhausted_stops (m : PlayerModel) (resp : RecoResponse)
    (hq : ¬ (m.state.queueIndex + 1 < (m.state.queue.length : ℤ)))
    (hr : resp = RecoResponse.failed ∨ resp = RecoResponse.ok none) :
    (skip m resp).state.isPlaying = false ∧
    (skip m resp).state.queue = m.state.queue ∧
    (skip m resp).state.queueIndex = m.state.queueIndex ∧
    (skip m resp).state.currentTrack = m.state.currentTrack := by
  unfold skip
  rcases hr with rfl | rfl <;>
    rcases hc : m.state.currentTrack with _ | tr <;>
      simp [hq, hc]

theorem skip_exhausted_stops_witness :
    (¬ (demoPlayer.state.queueIndex + 1 <
        (demoPlayer.state.queue.length : ℤ))) ∧
    (RecoResponse.failed = RecoResponse.failed ∨
      RecoResponse.failed = RecoResponse.ok none) ∧
    ((skip demoPlayer RecoResponse.failed).state.isPlaying = false ∧
      (skip demoPlayer RecoResponse.failed).state.queue =
        demoPlayer.state.queue ∧
      (skip demoPlayer RecoResponse.failed).state.queueIndex =
        demoPlayer.state.queueIndex ∧
      (skip demoPlayer RecoResponse.failed).state.currentTrack =
        demoPlayer.state.currentTrack) :=
  ⟨by decide, Or.inl rfl,
    skip_exhausted_stops demoPlayer RecoResponse.failed (by decide)
      (Or.inl rfl)⟩

/-- C10: `setQueue` clamps the start index into the queue bounds; with a
non-empty track list the resulting index is in range and the current
track is the entry at that index, and with an empty list the current
track is null; in neither case does an out-of-bounds access occur. -/
theorem setQueue_clamps (m : PlayerModel) (tracks : List Track)
    (startIndex : ℤ) :
    (setQueue m tracks startIndex).state.queueIndex =
      max 0 (min startIndex ((tracks.length : ℤ) - 1)) ∧
    (tracks ≠ [] →
      0 ≤ (setQueue m tracks startIndex).state.queueIndex ∧
      (setQueue m tracks startIndex).state.queueIndex <
        (tracks.length : ℤ) ∧
      (setQueue m tracks startIndex).state.currentTrack =
        tracks.get? (setQueue m tracks startIndex).state.queueIndex.toNat ∧
      ((setQueue m tracks startIndex).state.currentTrack).isSome = true) ∧
    (tracks = [] →
      (setQueue m tracks startIndex).state.currentTrack = none) := by
  refine ⟨rfl, fun hne => ?_, fun he => ?_⟩
  · have hlen : 0 < (tracks.length : ℤ) := by
      exact_mod_cast List.length_pos.mpr hne
    have h0 : (0 : ℤ) ≤ max 0 (min startIndex ((tracks.length : ℤ) - 1)) :=
      le_max_left _ _
    have hlt : max 0 (min startIndex ((tracks.length : ℤ) - 1)) <
        (tracks.length : ℤ) := by
      rcases le_total startIndex ((tracks.length : ℤ) - 1) with h | h
      · rw [min_eq_left h]; omega
      · rw [min_eq_right h]; omega
    have htoNat : (max 0 (min startIndex ((tracks.length : ℤ) - 1))).toNat <
        tracks.length := by omega
    refine ⟨h0, hlt, ?_, ?_⟩
    · show jsIndex tracks _ = _
      unfold jsIndex
      rw [if_neg (not_lt.mpr h0)]
      rfl
    · show (jsIndex tracks _).isSome = true
      unfold jsIndex
      rw [if_neg (not_lt.mpr h0), List.get?_eq_get htoNat]
      rfl
  · subst he
    show jsIndex [] _ = none
    unfold jsIndex
    split
    · rfl
    · simp

theorem setQueue_clamps_witness :
    ([{ id := 1 }, { id := 2 }] ≠ ([] : List Track)) ∧
    (0 ≤ (setQueue initialPlayer [{ id := 1 }, { id := 2 }] 5).state.queueIndex ∧
      (setQueue initialPlayer [{ id := 1 }, { id := 2 }] 5).state.queueIndex <
        (([{ id := 1 }, { id := 2 }] : List Track).length : ℤ) ∧
      (setQueue initialPlayer [{ id := 1 }, { id := 2 }] 5).state.currentTrack =
        ([{ id := 1 }, { id := 2 }] : List Track).get?
          (setQueue initialPlayer [{ id := 1 }, { id := 2 }] 5).state.queueIndex.toNat ∧
      ((setQueue initialPlayer [{ id := 1 }, { id := 2 }] 5).state.currentTrack).isSome
        = true) :=
  ⟨by decide,
    (setQueue_clamps initialPlayer [{ id := 1 }, { id := 2 }] 5).2.1
      (by decide)⟩

/-- Folding addition of `f` over a list equals the starting value plus
the sum of the mapped list. -/
theorem foldl_add_eq_sum_map (f : LEvent → ℚ) (l : List LEvent) :
    ∀ a : ℚ, l.foldl (fun sum e => sum + f e) a = a + (l.map f).sum := by
  induction l with
  | nil => intro a; simp
  | cons e l ih => intro a; simp [ih, add_assoc]

/-- C3 (amended): in ListeningSummary's `calculateStats` the computed
average duration equals the sum of `listened_duration` over play events
divided by the number of play events, and 0 when there are no play
events.  MetricsPanel's displayed average instead divides the sum of
`listened_duration` over all events by the play count (see the
counterexample). -/
theorem calculateStats_avgDuration_spec (events : List LEvent) :
    (calculateStats events).avgDuration = specAvgDuration events := by
  unfold calculateStats specAvgDuration
  dsimp only
  rw [foldl_add_eq_sum_map, zero_add]
  rcases Nat.eq_zero_or_pos
      (events.filter (fun e => e.event_type == EventType.play)).length with
    h | h
  · rw [if_neg (by omega), if_pos h]
  · rw [if_pos h, if_neg (by omega)]

/-- C3 (counterexample): for a history with one play of 10 seconds and a
pause carrying 5 listened seconds, MetricsPanel's average is 15 seconds
rather than the 10 seconds the play-events-only mean prescribes. -/
theorem metricsAvgDuration_counterexample :
    metricsAvgDuration mixedEvents ≠ specAvgDuration mixedEvents ∧
    metricsAvgDuration mixedEvents = 15 ∧
    specAvgDuration mixedEvents = 10 := by
  have hb : (EventType.pause == EventType.play) = false := rfl
  have h1 : metricsAvgDuration mixedEvents = 15 := by
    norm_num [metricsAvgDuration, mixedEvents, List.filter, hb]
  have h2 : specAvgDuration mixedEvents = 10 := by
    norm_num [specAvgDuration, mixedEvents, List.filter, hb]
  refine ⟨by rw [h1, h2]; norm_num, h1, h2⟩

/-- C8: calling `ProjectionService.project()` twice on an unchanged
catalog returns identical coordinates: the second call hits the cache
published by the first. -/
theorem project_deterministic (catalog : List CatalogEntry)
    (cache : Option ProjCache) :
    (project catalog (project catalog cache).2).1 =
      (project catalog cache).1 := by
  rcases cache with _ | c
  · simp [project]
  · by_cases h : c.snapshot = catalog
    · simp [project, h]
    · simp [project, h]

/-- Every payload built by `createEventPayload` has a non-negative
listened duration, thanks to the `Math.max(0, listenedDuration)` clamp. -/
theorem createEventPayload_nonneg (userId trackId : ℕ)
    (eventType : EventType) (d : ℚ) :
    0 ≤ (createEventPayload userId trackId eventType d).listened_duration :=
  le_max_left 0 d

/-- C5: every listening event emitted by any entry point of the event
logger carries a `listened_duration` greater than or equal to 0: all
emission paths construct their payload through `createEventPayload`. -/
theorem loggerStep_duration_nonneg (ctx : Option LoggerCtx) (op : LoggerOp)
    (s : LoggerState) (p : EventPayload)
    (hp : p ∈ (loggerStep ctx op s).1) : 0 ≤ p.listened_duration := by
  rcases op with t | t | ⟨f, t⟩ | t | t | ⟨pid, t⟩ <;>
    rcases ctx with _ | c <;>
      simp only [loggerStep, handlePlay, handlePause, handleSeek, handleSkip,
        handleTrackEnd, logListeningEvent, logSkipForPreviousTrack] at hp <;>
      first
        | exact absurd hp (List.not_mem_nil p)
        | (repeat' split at hp) <;>
          first
            | exact absurd hp (List.not_mem_nil p)
            | (rw [List.mem_singleton] at hp
               exact hp ▸ createEventPayload_nonneg _ _ _ _)

theorem loggerStep_duration_nonneg_witness :
    createEventPayload 1 2 EventType.skip 4 ∈
      (loggerStep (some { userId := 1, trackId := 2 }) (LoggerOp.skip 7)
        { playStartTime := 3, lastEventType := none }).1 ∧
    0 ≤ (createEventPayload 1 2 EventType.skip 4).listened_duration :=
  ⟨by norm_num [loggerStep, handleSkip, logListeningEvent],
    loggerStep_duration_nonneg (some { userId := 1, trackId := 2 })
      (LoggerOp.skip 7) { playStartTime := 3, lastEventType := none }
      (createEventPayload 1 2 EventType.skip 4)
      (by norm_num [loggerStep, handleSkip, logListeningEvent])⟩

/-- C9: with logging enabled, a user and a current track present, the
seek handler emits an event exactly when the seek distance exceeds 5
seconds, and every event it emits is a seek event with
`listened_duration` exactly 0. -/
theorem handleSeek_spec (c : LoggerCtx) (fromTime toTime : ℚ)
    (s : LoggerState) :
    ((handleSeek (some c) fromTime toTime s).1 ≠ [] ↔
      5 < |toTime - fromTime|) ∧
    ∀ p ∈ (handleSeek (some c) fromTime toTime s).1,
      p.event_type = EventType.seek ∧ p.listened_duration = 0 := by
  unfold handleSeek
  by_cases h : 5 < |toTime - fromTime|
  · simp [h, createEventPayload]
  · simp [h]

theorem handleSeek_spec_witness :
    createEventPayload 1 2 EventType.seek 0 ∈
      (handleSeek (some { userId := 1, trackId := 2 }) 0 10
        { playStartTime := 0, lastEventType := none }).1 ∧
    ((createEventPayload 1 2 EventType.seek 0).event_type =
        EventType.seek ∧
      (createEventPayload 1 2 EventType.seek 0).listened_duration = 0) :=
  ⟨by norm_num [handleSeek],
    (handleSeek_spec { userId := 1, trackId := 2 } 0 10
      { playStartTime := 0, lastEventType := none }).2
      (createEventPayload 1 2 EventType.seek 0) (by norm_num [handleSeek])⟩

/-- The dot product is symmetric. -/
theorem dotv_comm (v w : RVec) : dotv v w = dotv w v := by
  unfold dotv
  rw [List.zipWith_comm_of_comm (· * ·) mul_comm]

/-- Cosine similarity is symmetric in its two vectors. -/
theorem cosineSim_comm (v w : RVec) : cosineSim v w = cosineSim w v := by
  unfold cosineSim
  rw [if_congr or_comm rfl (by rw [dotv_comm, mul_comm])]

/-- C7: for every pair of track ids present in the EmbeddingStore,
`similarity(a, b)` equals `similarity(b, a)`. -/
theorem similarity_symm (s : List EmbeddingEntry) (a b : ℕ) (va vb : RVec)
    (ha : lookupVec s a = some va) (hb : lookupVec s b = some vb) :
    similarity s a b = similarity s b a := by
  unfold similarity
  rw [ha, hb]
  dsimp only
  rw [cosineSim_comm]

theorem similarity_symm_witness :
    lookupVec wideStore 1 = some [(1 : ℝ)] ∧
    lookupVec wideStore 2 = some [(1 : ℝ)] ∧
    similarity wideStore 1 2 = similarity wideStore 2 1 :=
  ⟨rfl, rfl, similarity_symm wideStore 1 2 [(1 : ℝ)] [(1 : ℝ)] rfl rfl⟩

/-- C6: with distinct ids in the store, a `nearestNeighbors` query
returns at most `k` pairs, ordered by strictly descending similarity
with equal similarities ordered by strictly ascending track id. -/
theorem nearestNeighbors_spec (s : List EmbeddingEntry) (query : RVec)
    (excludeIds : List ℕ) (k : ℕ) (hN : (storeIds s).Nodup) :
    (nearestNeighbors s query excludeIds k).length ≤ k ∧
    List.Pairwise (fun p q : ℕ × ℝ => q.2 < p.2 ∨ (p.2 = q.2 ∧ p.1 < q.1))
      (nearestNeighbors s query excludeIds k) := by
  constructor
  · unfold nearestNeighbors
    rw [List.length_take]
    exact min_le_left _ _
  · have hsorted :
        List.Pairwise nnRel
          (List.insertionSort nnRel (scored s excludeIds query)) :=
      List.sorted_insertionSort nnRel _
    have hpair1 : List.Pairwise nnRel (nearestNeighbors s query excludeIds k) :=
      List.Pairwise.sublist (List.take_sublist _ _) hsorted
    have hidnodup1 :
        ((candidates s excludeIds).map (fun e => e.track_id)).Nodup :=
      ((List.filter_sublist s).map _).nodup hN
    have hmapfst :
        (scored s excludeIds query).map Prod.fst =
          (candidates s excludeIds).map (fun e => e.track_id) := by
      unfold scored
      rw [List.map_map]
      rfl
    have hidnodup2 : ((scored s excludeIds query).map Prod.fst).Nodup := by
      rw [hmapfst]; exact hidnodup1
    have hidnodup3 :
        ((List.insertionSort nnRel (scored s excludeIds query)).map
          Prod.fst).Nodup :=
      (((List.perm_insertionSort nnRel _).map Prod.fst).nodup_iff).mpr hidnodup2
    have hidnodup4 :
        ((nearestNeighbors s query excludeIds k).map Prod.fst).Nodup :=
      ((List.take_sublist _ _).map Prod.fst).nodup hidnodup3
    have hpairne :
        List.Pairwise (fun p q : ℕ × ℝ => p.1 ≠ q.1)
          (nearestNeighbors s query excludeIds k) :=
      List.pairwise_map.mp hidnodup4
    refine (hpair1.and hpairne).imp ?_
    rintro p q ⟨h1 | ⟨he, hle⟩, hne⟩
    · exact Or.inl h1
    · exact Or.inr ⟨he, lt_of_le_of_ne hle hne⟩

theorem nearestNeighbors_spec_witness :
    (storeIds wideStore).Nodup ∧
    ((nearestNeighbors wideStore [(1 : ℝ)] [] 3).length ≤ 3 ∧
      List.Pairwise (fun p q : ℕ × ℝ => q.2 < p.2 ∨ (p.2 = q.2 ∧ p.1 < q.1))
        (nearestNeighbors wideStore [(1 : ℝ)] [] 3)) :=
  ⟨by decide, nearestNeighbors_spec wideStore [(1 : ℝ)] [] 3 (by decide)⟩

/-- The magnitude of the one-dimensional vector with entry 1. -/
theorem normv_single : normv [(1 : ℝ)] = 1 := by
  unfold normv dotv
  simp

/-- A successful single-nearest-neighbor query returns the id of one of
the non-excluded store entries. -/
theorem nearestNeighbor_mem (s : List EmbeddingEntry) (q : RVec)
    (ex : List ℕ) (id : ℕ) (h : nearestNeighbor s q ex = some id) :
    id ∈ (candidates s ex).map (fun e => e.track_id) := by
  unfold nearestNeighbor at h
  obtain ⟨p, hp, rfl⟩ := Option.map_eq_some'.mp h
  have hmem : p ∈ nearestNeighbors s q ex 1 := by
    cases hl : nearestNeighbors s q ex 1 with
    | nil => rw [hl] at hp; exact absurd hp (by simp)
    | cons a l =>
        rw [hl, List.head?_cons] at hp
        obtain rfl := Option.some.inj hp
        exact List.mem_cons_self a l
  have hmem2 : p ∈ List.insertionSort nnRel (scored s ex q) :=
    List.mem_of_mem_take hmem
  have hmem3 : p ∈ scored s ex q := (List.mem_insertionSort nnRel).mp hmem2
  unfold scored at hmem3
  obtain ⟨e, he, hpe⟩ := List.mem_map.mp hmem3
  exact List.mem_map.mpr ⟨e, he, by rw [← hpe]⟩

/-- When the exclusion set does not exhaust the store, the
single-nearest-neighbor query succeeds. -/
theorem nearestNeighbor_isSome (s : List EmbeddingEntry) (q : RVec)
    (ex : List ℕ) (h : candidates s ex ≠ []) :
    ∃ id, nearestNeighbor s q ex = some id := by
  unfold nearestNeighbor nearestNeighbors
  have hlen : 0 < (scored s ex q).length := by
    unfold scored
    rw [List.length_map]
    exact List.length_pos.mpr h
  have hlen2 : 0 < (List.insertionSort nnRel (scored s ex q)).length := by
    rw [List.length_insertionSort]
    exact hlen
  have hlen3 :
      0 < ((List.insertionSort nnRel (scored s ex q)).take 1).length := by
    rw [List.length_take]
    omega
  cases hh : ((List.insertionSort nnRel (scored s ex q)).take 1).head? with
  | none =>
      rw [List.head?_eq_none_iff] at hh
      rw [hh] at hlen3
      simp at hlen3
  | some p => exact ⟨p.1, rfl⟩

/-- Candidate ids are store ids outside the exclusion set. -/
theorem mem_candidates_ids (s : List EmbeddingEntry) (ex : List ℕ)
    (id : ℕ) (h : id ∈ (candidates s ex).map (fun e => e.track_id)) :
    id ∈ storeIds s ∧ id ∉ ex := by
  obtain ⟨e, he, rfl⟩ := List.mem_map.mp h
  have hf := List.mem_filter.mp he
  exact ⟨List.mem_map.mpr ⟨e, hf.1, rfl⟩, of_decide_eq_true hf.2⟩

/-- The candidate list only depends on the exclusion set up to
membership. -/
theorem candidates_congr (s : List EmbeddingEntry) (ex1 ex2 : List ℕ)
    (h : ∀ a, a ∈ ex1 ↔ a ∈ ex2) :
    candidates s ex1 = candidates s ex2 := by
  unfold candidates
  apply List.filter_congr
  intro e _
  rw [decide_eq_decide]
  rw [h e.track_id]

/-- Excluding one currently available candidate id shrinks the
candidate pool by exactly one entry (the store has no duplicate ids). -/
theorem candidates_cons_length (s : List EmbeddingEntry) (ex : List ℕ)
    (id : ℕ) (hN : (storeIds s).Nodup)
    (h : id ∈ (candidates s ex).map (fun e => e.track_id)) :
    (candidates s (id :: ex)).length + 1 = (candidates s ex).length := by
  have hfe : candidates s (id :: ex) =
      (candidates s ex).filter (fun e => !(e.track_id == id)) := by
    unfold candidates
    rw [List.filter_filter]
    apply List.filter_congr
    intro e _
    by_cases h1 : e.track_id = id <;> by_cases h2 : e.track_id ∈ ex <;>
      simp [h1, h2]
  have hnd : ((candidates s ex).map (fun e => e.track_id)).Nodup :=
    ((List.filter_sublist s).map _).nodup hN
  have hcount1 :
      List.count id ((candidates s ex).map (fun e => e.track_id)) = 1 :=
    List.count_eq_one_of_mem hnd h
  have hflen :
      ((candidates s ex).filter (fun e => e.track_id == id)).length = 1 := by
    rw [← List.countP_eq_length_filter]
    rw [List.count, List.countP_map] at hcount1
    exact hcount1
  have hsplit :=
    List.length_eq_length_filter_add (l := candidates s ex)
      (fun e => e.track_id == id)
  rw [hfe]
  omega

/-- The intermediate-pick loop of the wormhole generator succeeds and
produces pairwise-distinct picks outside the exclusions whenever enough
non-excluded catalog entries remain. -/
theorem pickMids_ok (s : List EmbeddingEntry) (p0 p1 : RVec)
    (startId endId : ℕ) (steps : ℕ) (hN : (storeIds s).Nodup) :
    ∀ (idxs : List ℕ) (chosen : List ℕ),
      idxs.length ≤ (candidates s (startId :: endId :: chosen)).length →
      ∃ mids,
        pickMids s p0 p1 startId endId steps chosen idxs = Except.ok mids ∧
        mids.length = idxs.length ∧ mids.Nodup ∧
        ∀ x ∈ mids, x ∉ startId :: endId :: chosen := by
  intro idxs
  induction idxs with
  | nil =>
      intro chosen _
      exact ⟨[], rfl, rfl, List.nodup_nil, by simp⟩
  | cons i rest ih =>
      intro chosen hlen
      have hne : candidates s (startId :: endId :: chosen) ≠ [] := by
        intro h0
        rw [h0] at hlen
        simp at hlen
      obtain ⟨id, hid⟩ :=
        nearestNeighbor_isSome s
          (slerpPoint p0 p1 ((i : ℝ) / ((steps : ℝ) - 1)))
          (startId :: endId :: chosen) hne
      have hmem :
          id ∈ (candidates s (startId :: endId :: chosen)).map
            (fun e => e.track_id) :=
        nearestNeighbor_mem s _ _ id hid
      have hnotin : id ∉ startId :: endId :: chosen :=
        (mem_candidates_ids s _ id hmem).2
      have hperm :
          candidates s (startId :: endId :: id :: chosen) =
            candidates s (id :: startId :: endId :: chosen) :=
        candidates_congr s _ _ (by intro a; simp [List.mem_cons]; tauto)
      have hcount :
          (candidates s (id :: startId :: endId :: chosen)).length + 1 =
            (candidates s (startId :: endId :: chosen)).length :=
        candidates_cons_length s _ id hN hmem
      have hlen' :
          rest.length ≤
            (candidates s (startId :: endId :: id :: chosen)).length := by
        rw [hperm]
        simp only [List.length_cons] at hlen
        omega
      obtain ⟨mids, hm, hlenm, hnodupm, hninm⟩ := ih (id :: chosen) hlen'
      refine ⟨id :: mids, ?_, ?_, ?_, ?_⟩
      · simp only [pickMids]
        rw [hid]
        show Except.map (fun mids => id :: mids)
          (pickMids s p0 p1 startId endId steps (id :: chosen) rest) =
            Except.ok (id :: mids)
        rw [hm]
        rfl
      · simp [hlenm]
      · refine List.nodup_cons.mpr ⟨?_, hnodupm⟩
        intro hmem2
        exact (hninm id hmem2) (by simp)
      · intro x hx
        rcases List.mem_cons.mp hx with rfl | hx2
        · exact hnotin
        · have hnot := hninm x hx2
          intro hc
          apply hnot
          simp only [List.mem_cons] at hc ⊢
          tauto

/-- C1 (amended): for start and end tracks with known, non-zero
embeddings and `steps = 8`, provided the catalog holds at least six
tracks besides the two endpoints, `generatePath` returns an ordered list
of exactly 8 track ids whose first element is the start track, whose
last element is the end track, and whose intermediate elements are
pairwise distinct and distinct from both endpoints. -/
theorem generatePath_spec (s : List EmbeddingEntry) (startId endId : ℕ)
    (v0 v1 : RVec) (hN : (storeIds s).Nodup)
    (h0 : lookupVec s startId = some v0)
    (h1 : lookupVec s endId = some v1)
    (hz0 : normv v0 ≠ 0) (hz1 : normv v1 ≠ 0)
    (hcount : 6 ≤ (candidates s [startId, endId]).length) :
    ∃ mids : List ℕ,
      generatePath s startId endId 8 =
        Except.ok (startId :: (mids ++ [endId])) ∧
      (startId :: (mids ++ [endId])).length = 8 ∧
      (startId :: (mids ++ [endId])).head? = some startId ∧
      (startId :: (mids ++ [endId])).getLast? = some endId ∧
      mids.Nodup ∧ startId ∉ mids ∧ endId ∉ mids := by
  have hlen6 : (List.range' 1 6).length = 6 := rfl
  obtain ⟨mids, hm, hlenm, hnodupm, hnin⟩ :=
    pickMids_ok s (normalizeVec v0) (normalizeVec v1) startId endId 8 hN
      (List.range' 1 6) [] (by rw [hlen6]; exact hcount)
  refine ⟨mids, ?_, ?_, rfl, ?_, hnodupm, ?_, ?_⟩
  · unfold generatePath
    rw [if_neg (by norm_num), h0, h1]
    dsimp only
    rw [if_neg (by push_neg; exact ⟨hz0, hz1⟩)]
    rw [show List.range' 1 (8 - 2) = List.range' 1 6 from rfl, hm]
  · simp [hlenm]
  · rw [show startId :: (mids ++ [endId]) = (startId :: mids) ++ [endId]
      from rfl]
    exact List.getLast?_concat _
  · intro hc
    exact (hnin startId hc) (by simp)
  · intro hc
    exact (hnin endId hc) (by simp)

/-- In the two-track catalog, every single-neighbor query excluding both
tracks comes back empty. -/
theorem nearestNeighbor_tinyStore (q : RVec) :
    nearestNeighbor tinyStore q [1, 2] = none := rfl

/-- C1 (counterexample): in a catalog of only two tracks, both with
known non-zero embeddings, the 8-step wormhole between them cannot
return 8 distinct ids; the exclusion of the endpoints and of earlier
picks exhausts the catalog at the first intermediate step. -/
theorem generatePath_small_catalog_counterexample :
    lookupVec tinyStore 1 = some [(1 : ℝ)] ∧
    lookupVec tinyStore 2 = some [(1 : ℝ)] ∧
    normv [(1 : ℝ)] ≠ 0 ∧
    generatePath tinyStore 1 2 8 =
      Except.error WormholeError.noCandidates := by
  refine ⟨rfl, rfl, ?_, ?_⟩
  · rw [normv_single]
    exact one_ne_zero
  · unfold generatePath
    rw [if_neg (by norm_num),
      show lookupVec tinyStore 1 = some [(1 : ℝ)] from rfl,
      show lookupVec tinyStore 2 = some [(1 : ℝ)] from rfl]
    dsimp only
    rw [if_neg (by rw [normv_single]; simp)]
    rw [show List.range' 1 (8 - 2) = 1 :: [2, 3, 4, 5, 6] from rfl]
    simp only [pickMids]
    rw [nearestNeighbor_tinyStore]

theorem generatePath_spec_witness :
    (storeIds wideStore).Nodup ∧
    lookupVec wideStore 1 = some [(1 : ℝ)] ∧
    lookupVec wideStore 2 = some [(1 : ℝ)] ∧
    normv [(1 : ℝ)] ≠ 0 ∧
    6 ≤ (candidates wideStore [1, 2]).length ∧
    (∃ mids : List ℕ,
      generatePath wideStore 1 2 8 = Except.ok (1 :: (mids ++ [2])) ∧
      (1 :: (mids ++ [2])).length = 8 ∧
      (1 :: (mids ++ [2])).head? = some 1 ∧
      (1 :: (mids ++ [2])).getLast? = some 2 ∧
      mids.Nodup ∧ 1 ∉ mids ∧ 2 ∉ mids) :=
  ⟨by decide, rfl, rfl, by rw [normv_single]; exact one_ne_zero,
    le_refl 6,
    generatePath_spec wideStore 1 2 [(1 : ℝ)] [(1 : ℝ)] (by decide) rfl rfl
      (by rw [normv_single]; exact one_ne_zero)
      (by rw [normv_single]; exact one_ne_zero) (le_refl 6)⟩
